import Mathlib

/-
  Verification development for the MinimalUltrasonic Arduino library
  (src/MinimalUltrasonic.h, src/MinimalUltrasonic.cpp, version 2.0.0).

  The library is embedded shallowly:
  - the C++ class MinimalUltrasonic becomes the structure State holding the
    five member fields;
  - machine integers (unsigned long, unsigned int, uint8_t) are modelled as
    Nat (all quantities involved are far below any wrap-around in the
    scenarios considered);
  - float arithmetic is modelled exactly over the rationals;
  - the hardware is modelled by an echo trace, a function from time in
    microseconds to the level of the echo pin, and the busy-wait loops of
    timing() are modelled as polls at consecutive microsecond ticks,
    one digitalRead and one micros() check per tick, with an explicit fuel
    argument that is large enough for the loop to always resolve;
  - the GPIO side effects of timing() are recorded as an explicit event list
    so that ordering properties of the trigger pulse can be stated.
-/

namespace MinimalUltrasonic

/-- Measurement units, from the C++ enum Unit in MinimalUltrasonic.h
(CM = 0, METERS = 1, MM = 2, INCHES = 3, YARDS = 4, MILES = 5). -/
inductive Unit : Type where
  | CM
  | METERS
  | MM
  | INCHES
  | YARDS
  | MILES
deriving DecidableEq, Repr

/-- Embedded value of the C++ constant
`static const float MICROSECONDS_PER_CM = 29.1;` as an exact rational. -/
def MICROSECONDS_PER_CM : ℚ := 291 / 10

/-- Member fields of the C++ class MinimalUltrasonic: _trigPin, _echoPin,
_isThreePin, _timeout, _defaultUnit (underscores dropped). -/
structure State : Type where
  trigPin : Nat
  echoPin : Nat
  isThreePin : Bool
  timeout : Nat
  defaultUnit : Unit
deriving DecidableEq, Repr

/-- Embedding of the main constructor
`MinimalUltrasonic(uint8_t trigPin, uint8_t echoPin, unsigned long timeOut)`:
stores the pins, sets `_isThreePin(trigPin == echoPin)`, stores the timeout
and initialises `_defaultUnit(CM)`. The pinMode and digitalWrite side effects
of the constructor touch no member field and are not modelled. -/
def construct (trigPin echoPin : Nat) (timeOut : Nat) : State :=
  { trigPin := trigPin
    echoPin := echoPin
    isThreePin := decide (trigPin = echoPin)
    timeout := timeOut
    defaultUnit := Unit.CM }

/-- Embedding of the two-argument call of the main constructor, whose third
parameter defaults to `20000UL` in the header. -/
def constructDefaultTimeout (trigPin echoPin : Nat) : State :=
  construct trigPin echoPin 20000

/-- Embedding of the delegating single-pin constructor
`MinimalUltrasonic(uint8_t sigPin) : MinimalUltrasonic(sigPin, sigPin, 20000UL)`. -/
def constructSinglePin (sigPin : Nat) : State :=
  construct sigPin sigPin 20000

/-- Embedding of `void setTimeout(unsigned long timeOut)`. -/
def setTimeout (s : State) (timeOut : Nat) : State :=
  { s with timeout := timeOut }

/-- Embedding of `void setMaxDistance(unsigned int distance)`:
`_timeout = distance * 2 * MICROSECONDS_PER_CM;`. The product
`distance * 2` is evaluated in unsigned int arithmetic, which is 16 bits
wide on the AVR boards (Uno, Mega, Nano) that the documentation names as
the primary targets, so it wraps modulo 2 ^ 16 (on 32-bit targets the wrap
happens at 2 ^ 32 instead); the wrapped integer is then converted to float
and multiplied by MICROSECONDS_PER_CM, and the nonnegative result is
converted to unsigned long, which truncates, modelled by Nat.floor. The
float product is modelled exactly over ℚ: for every wrapped operand
m < 2 ^ 16 the value m * 29.1 is below 2 ^ 21, where the binary32
evaluation of m * 29.1f differs from the rational value by less than 0.09,
while the rational value is either an exact integer (when 10 divides m) or
at least 0.2 away from the neighbouring integers, so the float truncation
agrees with the rational truncation for every representable input. -/
def setMaxDistance (s : State) (distance : Nat) : State :=
  { s with timeout :=
      Nat.floor (((distance * 2) % 2 ^ 16 : Nat) * MICROSECONDS_PER_CM) }

/-- Embedding of `unsigned long getTimeout() const`. -/
def getTimeout (s : State) : Nat :=
  s.timeout

/-- Embedding of `Unit getUnit() const`. -/
def getUnit (s : State) : Unit :=
  s.defaultUnit

/-- Embedding of `void setUnit(Unit unit)`. -/
def setUnit (s : State) (unit : Unit) : State :=
  { s with defaultUnit := unit }

/-- GPIO events performed by timing(), in program order: pin direction
switches of the trigger pin, digitalWrite levels on the trigger pin,
delayMicroseconds calls, and digitalRead polls of the echo pin (recording
the poll time and the level read). -/
inductive Ev : Type where
  | pinModeTrigOutput
  | pinModeTrigInput
  | writeTrig (high : Bool)
  | delayMicroseconds (n : Nat)
  | readEcho (t : Nat) (value : Bool)
deriving DecidableEq, Repr

/-- Embedding of one busy-wait loop of timing(). Both loops of the C++ code
have the same shape: `while (digitalRead(_echoPin) != lvl) { if ((micros() -
start) > _timeout) return 0; }` (the first loop waits for HIGH, the second
for LOW). Each iteration polls the echo line at the current tick `t`; if the
awaited level is seen the loop exits with the current time, otherwise the
strict timeout comparison is evaluated at the same tick and time advances by
one microsecond. The result is the exit time (`some t`) or the timeout
outcome (`none`), paired with the list of polls performed. The fuel argument
bounds the recursion; `timeout + 2` polls always suffice to resolve. -/
def waitForLevel (echo : Nat → Bool) (lvl : Bool) (start timeout : Nat) :
    Nat → Nat → Option Nat × List Ev
  | 0, _t => (none, [])
  | fuel + 1, t =>
    if echo t = lvl then
      (some t, [Ev.readEcho t (echo t)])
    else if timeout < t - start then
      (none, [Ev.readEcho t (echo t)])
    else
      let rest := waitForLevel echo lvl start timeout fuel (t + 1)
      (rest.1, Ev.readEcho t (echo t) :: rest.2)

/-- Unfolding equation of `waitForLevel` at a successor fuel value. -/
theorem waitForLevel_succ (echo : Nat → Bool) (lvl : Bool)
    (start timeout fuel t : Nat) :
    waitForLevel echo lvl start timeout (fuel + 1) t =
      if echo t = lvl then
        (some t, [Ev.readEcho t (echo t)])
      else if timeout < t - start then
        (none, [Ev.readEcho t (echo t)])
      else
        ((waitForLevel echo lvl start timeout fuel (t + 1)).1,
          Ev.readEcho t (echo t) ::
            (waitForLevel echo lvl start timeout fuel (t + 1)).2) := rfl

/-- Events of the trigger pulse issued at the start of timing():
optional pinMode(OUTPUT) for three-pin sensors, digitalWrite LOW,
delayMicroseconds(2), digitalWrite HIGH, delayMicroseconds(10),
digitalWrite LOW, then optional pinMode(INPUT) for three-pin sensors. -/
def trigPulseEvents (s : State) : List Ev :=
  (if s.isThreePin then [Ev.pinModeTrigOutput] else []) ++
  [Ev.writeTrig false, Ev.delayMicroseconds 2,
    Ev.writeTrig true, Ev.delayMicroseconds 10, Ev.writeTrig false] ++
  (if s.isThreePin then [Ev.pinModeTrigInput] else [])

/-- Embedding of `unsigned long timing() const` together with its event
trace. After the trigger pulse, the first loop waits from tick `t0` (the
value of `startWait = micros()`) for the echo pin to go HIGH; on timeout the
function returns 0. Otherwise `pulseStart` is the tick at which HIGH was
observed, the second loop waits for the pin to return LOW (returning 0 on
timeout), and the result is `pulseEnd - pulseStart`. -/
def timingE (s : State) (echo : Nat → Bool) (t0 : Nat) : Nat × List Ev :=
  match waitForLevel echo true t0 s.timeout (s.timeout + 2) t0 with
  | (none, evs1) => (0, trigPulseEvents s ++ evs1)
  | (some pulseStart, evs1) =>
    match waitForLevel echo false pulseStart s.timeout (s.timeout + 2)
        pulseStart with
    | (none, evs2) => (0, trigPulseEvents s ++ evs1 ++ evs2)
    | (some pulseEnd, evs2) =>
      (pulseEnd - pulseStart, trigPulseEvents s ++ evs1 ++ evs2)

/-- The numeric result of timing(): the echo pulse duration in microseconds,
with 0 encoding the timeout outcome. -/
def timing (s : State) (echo : Nat → Bool) (t0 : Nat) : Nat :=
  (timingE s echo t0).1

/-- Embedding of `float convertToUnit(unsigned long microseconds, Unit unit)
const`, exact over ℚ: `float distanceCm = microseconds / MICROSECONDS_PER_CM
/ 2.0;` followed by the per-unit scaling switch (2.54, 91.44 and 160934.4
written as exact rationals). The method reads no member field. -/
def convertToUnit (microseconds : Nat) (unit : Unit) : ℚ :=
  let distanceCm : ℚ := (microseconds : ℚ) / MICROSECONDS_PER_CM / 2
  match unit with
  | Unit.CM => distanceCm
  | Unit.METERS => distanceCm / 100
  | Unit.MM => distanceCm * 10
  | Unit.INCHES => distanceCm / (254 / 100)
  | Unit.YARDS => distanceCm / (9144 / 100)
  | Unit.MILES => distanceCm / (1609344 / 10)

/-- Embedding of `float read(Unit unit) const` in state-passing form. The
method is declared const and assigns no member field, so the resulting state
equals the input state; the value is 0 when timing() reported a timeout and
the converted duration otherwise. -/
def readM (s : State) (unit : Unit) (echo : Nat → Bool) (t0 : Nat) :
    ℚ × State :=
  let duration := timing s echo t0
  (if duration = 0 then 0 else convertToUnit duration unit, s)

/-- Value returned by `read(unit)`. -/
def read (s : State) (unit : Unit) (echo : Nat → Bool) (t0 : Nat) : ℚ :=
  (readM s unit echo t0).1

/-- Embedding of a call `read()` with no explicit argument: the declaration
in the header is `float read(Unit unit = CM) const;`, so the omitted
argument is the constant CM. -/
def readDefault (s : State) (echo : Nat → Bool) (t0 : Nat) : ℚ :=
  read s Unit.CM echo t0

/-- A successful wait exits at a tick at which the awaited level was read,
no earlier than the tick it started from, and at most `timeout + 1`
microseconds after the reference time `start` (every poll before the exit
poll passed the strict timeout check at an elapsed time of at most
`timeout`, so the exit poll happens at elapsed time at most `timeout + 1`). -/
theorem waitForLevel_found (echo : Nat → Bool) (lvl : Bool)
    (start timeout : Nat) :
    ∀ fuel t r, start ≤ t → t - start ≤ timeout + 1 →
      (waitForLevel echo lvl start timeout fuel t).1 = some r →
      echo r = lvl ∧ t ≤ r ∧ start ≤ r ∧ r - start ≤ timeout + 1 := by
  intro fuel
  induction fuel with
  | zero =>
    intro t r _ _ h
    simp [waitForLevel] at h
  | succ fuel ih =>
    intro t r hst hwin h
    rw [waitForLevel_succ] at h
    by_cases he : echo t = lvl
    · rw [if_pos he] at h
      simp only [Option.some.injEq] at h
      subst h
      exact ⟨he, le_refl t, hst, hwin⟩
    · rw [if_neg he] at h
      by_cases hto : timeout < t - start
      · rw [if_pos hto] at h
        simp at h
      · rw [if_neg hto] at h
        simp only at h
        obtain ⟨h1, h2, h3, h4⟩ :=
          ih (t + 1) r (by omega) (by omega) h
        exact ⟨h1, by omega, h3, h4⟩

/-- When the awaited level never appears within `timeout + 1` microseconds
of the reference time, the wait resolves to the timeout outcome. -/
theorem waitForLevel_none_of_no_level (echo : Nat → Bool) (lvl : Bool)
    (start timeout : Nat) :
    ∀ fuel t, start ≤ t → t - start ≤ timeout + 1 →
      (∀ u, start ≤ u → u - start ≤ timeout + 1 → echo u ≠ lvl) →
      (waitForLevel echo lvl start timeout fuel t).1 = none := by
  intro fuel
  induction fuel with
  | zero =>
    intro t _ _ _
    simp [waitForLevel]
  | succ fuel ih =>
    intro t hst hwin hno
    rw [waitForLevel_succ]
    have he : echo t ≠ lvl := hno t hst hwin
    rw [if_neg he]
    by_cases hto : timeout < t - start
    · rw [if_pos hto]
    · rw [if_neg hto]
      simp only
      exact ih (t + 1) (by omega) (by omega) hno

/-- When the wait resolves to the timeout outcome (with sufficient fuel),
the awaited level was absent at every tick of the window: no poll from the
starting tick up to an elapsed time of `timeout` microseconds saw it. -/
theorem no_level_of_waitForLevel_none (echo : Nat → Bool) (lvl : Bool)
    (start timeout : Nat) :
    ∀ fuel t, start ≤ t → start + timeout + 2 ≤ t + fuel →
      (waitForLevel echo lvl start timeout fuel t).1 = none →
      ∀ u, t ≤ u → u - start ≤ timeout → echo u ≠ lvl := by
  intro fuel
  induction fuel with
  | zero =>
    intro t _ hfuel _ u hu hwin
    omega
  | succ fuel ih =>
    intro t hst hfuel h u hu hwin
    rw [waitForLevel_succ] at h
    by_cases he : echo t = lvl
    · rw [if_pos he] at h
      simp at h
    · rw [if_neg he] at h
      by_cases hto : timeout < t - start
      · -- every later tick is also past the window, so the window is empty
        omega
      · rw [if_neg hto] at h
        simp only at h
        rcases Nat.eq_or_lt_of_le hu with rfl | hlt
        · exact he
        · exact ih (t + 1) (by omega) (by omega) h u (by omega) hwin

/-- An awaited level that first appears at an elapsed time of exactly
`timeout` microseconds is still observed: the wait exits successfully at
that tick instead of reporting the timeout outcome. -/
theorem waitForLevel_boundary (echo : Nat → Bool) (lvl : Bool)
    (start timeout : Nat) :
    ∀ fuel t, start ≤ t → t ≤ start + timeout →
      start + timeout + 1 ≤ t + fuel →
      (∀ u, t ≤ u → u < start + timeout → echo u ≠ lvl) →
      echo (start + timeout) = lvl →
      (waitForLevel echo lvl start timeout fuel t).1 =
        some (start + timeout) := by
  intro fuel
  induction fuel with
  | zero =>
    intro t _ hle hfuel _ _
    omega
  | succ fuel ih =>
    intro t hst hle hfuel hno hhit
    rw [waitForLevel_succ]
    rcases Nat.eq_or_lt_of_le hle with rfl | hlt
    · rw [if_pos hhit]
    · have he : echo t ≠ lvl := hno t (le_refl t) hlt
      rw [if_neg he, if_neg (by omega)]
      simp only
      exact ih (t + 1) (by omega) (by omega) (by omega)
        (fun u hu hu2 => hno u (by omega) hu2) hhit

/-- A wait started at or before the first tick `t1` carrying the awaited
level exits successfully exactly at `t1`, provided `t1` lies within the
window reachable before the strict timeout check fires. -/
theorem waitForLevel_first_found (echo : Nat → Bool) (lvl : Bool)
    (start timeout t1 : Nat) :
    ∀ fuel t, start ≤ t → t ≤ t1 → t1 - start ≤ timeout + 1 →
      t1 + 1 ≤ t + fuel →
      (∀ u, t ≤ u → u < t1 → echo u ≠ lvl) →
      echo t1 = lvl →
      (waitForLevel echo lvl start timeout fuel t).1 = some t1 := by
  intro fuel
  induction fuel with
  | zero =>
    intro t _ hle _ hfuel _ _
    exfalso
    omega
  | succ fuel ih =>
    intro t hst hle hwin hfuel hno hhit
    rw [waitForLevel_succ]
    rcases Nat.eq_or_lt_of_le hle with rfl | hlt
    · rw [if_pos hhit]
    · have he : echo t ≠ lvl := hno t (le_refl t) hlt
      rw [if_neg he, if_neg (by omega)]
      simp only
      exact ih (t + 1) (by omega) (by omega) hwin (by omega)
        (fun u hu hu2 => hno u (by omega) hu2) hhit

/-- Every event recorded by a wait loop is a poll of the echo line. -/
theorem waitForLevel_trace_reads (echo : Nat → Bool) (lvl : Bool)
    (start timeout : Nat) :
    ∀ fuel t e, e ∈ (waitForLevel echo lvl start timeout fuel t).2 →
      ∃ u v, e = Ev.readEcho u v := by
  intro fuel
  induction fuel with
  | zero =>
    intro t e he
    simp [waitForLevel] at he
  | succ fuel ih =>
    intro t e he
    rw [waitForLevel_succ] at he
    by_cases h1 : echo t = lvl
    · rw [if_pos h1] at he
      simp at he
      exact ⟨t, echo t, he⟩
    · rw [if_neg h1] at he
      by_cases h2 : timeout < t - start
      · rw [if_pos h2] at he
        simp at he
        exact ⟨t, echo t, he⟩
      · rw [if_neg h2] at he
        simp only [List.mem_cons] at he
        rcases he with rfl | he
        · exact ⟨t, echo t, rfl⟩
        · exact ih (t + 1) e he

/-- Characterisation of the numeric result of timing() by the outcomes of
its two wait phases. -/
theorem timing_eq (s : State) (echo : Nat → Bool) (t0 : Nat) :
    timing s echo t0 =
      match (waitForLevel echo true t0 s.timeout (s.timeout + 2) t0).1 with
      | none => 0
      | some pulseStart =>
        match (waitForLevel echo false pulseStart s.timeout
            (s.timeout + 2) pulseStart).1 with
        | none => 0
        | some pulseEnd => pulseEnd - pulseStart := by
  unfold timing timingE
  rcases h1 : waitForLevel echo true t0 s.timeout (s.timeout + 2) t0 with
    ⟨_ | pulseStart, evs1⟩
  · rfl
  · dsimp only
    rcases h2 : waitForLevel echo false pulseStart s.timeout
        (s.timeout + 2) pulseStart with ⟨_ | pulseEnd, evs2⟩
    · rfl
    · rfl

/-- A wait whose first poll already sees the awaited level exits at once. -/
theorem waitForLevel_found_now (echo : Nat → Bool) (lvl : Bool)
    (start timeout fuel t : Nat) (h : echo t = lvl) :
    (waitForLevel echo lvl start timeout (fuel + 1) t).1 = some t := by
  rw [waitForLevel_succ, if_pos h]

/-- The converted distance is strictly positive for a strictly positive
duration, in every unit. -/
theorem convertToUnit_pos (d : Nat) (u : Unit) (hd : 0 < d) :
    0 < convertToUnit d u := by
  have hd2 : (0 : ℚ) < (d : ℚ) := by exact_mod_cast hd
  have h1 : (0 : ℚ) < (d : ℚ) / MICROSECONDS_PER_CM / 2 :=
    div_pos (div_pos hd2 (by norm_num [MICROSECONDS_PER_CM])) (by norm_num)
  cases u with
  | CM => exact h1
  | METERS => exact div_pos h1 (by norm_num : (0 : ℚ) < 100)
  | MM => exact mul_pos h1 (by norm_num : (0 : ℚ) < 10)
  | INCHES => exact div_pos h1 (by norm_num : (0 : ℚ) < 254 / 100)
  | YARDS => exact div_pos h1 (by norm_num : (0 : ℚ) < 9144 / 100)
  | MILES => exact div_pos h1 (by norm_num : (0 : ℚ) < 1609344 / 10)

/-- Claim C5, counterexample: the claim asserts that for every max
distance d the stored timeout equals d x 2 x TIME_PER_CM within rounding
tolerance, but `distance * 2` is evaluated in 16-bit unsigned int
arithmetic on the documented AVR targets, so setMaxDistance(40000) doubles
to 80000, wraps to 14464, and stores floor(14464 x 29.1) = 420902, nowhere
near 40000 x 2 x 29.1 = 2328000. -/
theorem setMaxDistance_wrap_counterexample :
    getTimeout (setMaxDistance (construct 1 2 20000) 40000) = 420902 ∧
    ¬ (|(getTimeout (setMaxDistance (construct 1 2 20000) 40000) : ℚ) -
        (40000 : ℚ) * 2 * MICROSECONDS_PER_CM| ≤ 1) := by
  have hstore : getTimeout (setMaxDistance (construct 1 2 20000) 40000) =
      420902 := by
    show Nat.floor (((40000 * 2) % 2 ^ 16 : Nat) * MICROSECONDS_PER_CM) =
      420902
    rw [show ((40000 * 2) % 2 ^ 16 : Nat) = 14464 from rfl]
    rw [show ((14464 : Nat) : ℚ) * MICROSECONDS_PER_CM = 2104512 / 5 from by
      norm_num [MICROSECONDS_PER_CM]]
    rw [Nat.floor_eq_iff (by norm_num)]
    norm_num
  refine ⟨hstore, ?_⟩
  rw [hstore]
  rw [abs_of_nonpos (by norm_num [MICROSECONDS_PER_CM])]
  norm_num [MICROSECONDS_PER_CM]

/-- Claim C5, amended: for every value t, setTimeout(t) followed by
getTimeout() returns exactly t; and for every max distance d in
centimeters whose doubled value fits unsigned int on the 16-bit AVR
targets (d x 2 < 2 ^ 16), setMaxDistance(d) followed by getTimeout()
yields a stored timeout equal to d x 2 x TIME_PER_CM within rounding
tolerance (the stored timeout is at most the exact real value and less
than one microsecond below it); for larger d the doubled distance first
wraps modulo 2 ^ 16. -/
theorem set_get_timeout_roundtrip (s : State) (t d : Nat)
    (h : d * 2 < 2 ^ 16) :
    getTimeout (setTimeout s t) = t ∧
    (getTimeout (setMaxDistance s d) : ℚ) ≤
      (d : ℚ) * 2 * MICROSECONDS_PER_CM ∧
    (d : ℚ) * 2 * MICROSECONDS_PER_CM - 1 <
      (getTimeout (setMaxDistance s d) : ℚ) := by
  have hm : (((d * 2) % 2 ^ 16 : Nat) : ℚ) * MICROSECONDS_PER_CM =
      (d : ℚ) * 2 * MICROSECONDS_PER_CM := by
    rw [Nat.mod_eq_of_lt h]
    push_cast
    ring
  refine ⟨rfl, ?_, ?_⟩
  · show ((Nat.floor (((d * 2) % 2 ^ 16 : Nat) * MICROSECONDS_PER_CM) :
        ℚ)) ≤ _
    rw [← hm]
    apply Nat.floor_le
    have hd : (0 : ℚ) ≤ (((d * 2) % 2 ^ 16 : Nat) : ℚ) := Nat.cast_nonneg _
    rw [MICROSECONDS_PER_CM]
    positivity
  · show _ < ((Nat.floor (((d * 2) % 2 ^ 16 : Nat) * MICROSECONDS_PER_CM) :
        ℚ))
    rw [← hm]
    have := Nat.lt_floor_add_one
      ((((d * 2) % 2 ^ 16 : Nat) : ℚ) * MICROSECONDS_PER_CM)
    linarith

/-- Witness for the amended claim C5 at timeout 42 and distance 100 cm:
the stored timeout lies within one microsecond below 100 x 2 x 29.1. -/
theorem set_get_timeout_roundtrip_witness :
    getTimeout (setTimeout (construct 1 2 20000) 42) = 42 ∧
    (getTimeout (setMaxDistance (construct 1 2 20000) 100) : ℚ) ≤
      ((100 : Nat) : ℚ) * 2 * MICROSECONDS_PER_CM ∧
    ((100 : Nat) : ℚ) * 2 * MICROSECONDS_PER_CM - 1 <
      (getTimeout (setMaxDistance (construct 1 2 20000) 100) : ℚ) :=
  set_get_timeout_roundtrip (construct 1 2 20000) 42 100 (by norm_num)

/-- Claim C6, counterexample: the claim asserts that the two-pin
constructor always produces singlePinMode = false, but the constructor sets
`_isThreePin(trigPin == echoPin)`; calling it with equal pins, for example
MinimalUltrasonic(5, 5, 20000), yields a single-pin-mode instance. -/
theorem twoPin_constructor_counterexample :
    ¬ ((construct 5 5 20000).isThreePin = false ∧
       (construct 5 5 20000).timeout = 20000 ∧
       (construct 5 5 20000).defaultUnit = Unit.CM) := by
  decide

/-- Claim C6, amended: for every triggerPin and echoPin that differ, the
two-pin constructor (with its default timeout argument 20000) creates an
instance with singlePinMode = false, the given timeout stored, and
defaultUnit = Centimeters; in general singlePinMode is set to the test
triggerPin == echoPin. -/
theorem twoPin_constructor_fields (trigPin echoPin timeOut : Nat)
    (h : trigPin ≠ echoPin) :
    (construct trigPin echoPin timeOut).isThreePin = false ∧
    (construct trigPin echoPin timeOut).timeout = timeOut ∧
    (construct trigPin echoPin timeOut).defaultUnit = Unit.CM ∧
    constructDefaultTimeout trigPin echoPin = construct trigPin echoPin 20000 := by
  refine ⟨?_, rfl, rfl, rfl⟩
  simp [construct, h]

/-- Witness for the amended claim C6 at the concrete pins 1 and 2. -/
theorem twoPin_constructor_fields_witness :
    (construct 1 2 20000).isThreePin = false ∧
    (construct 1 2 20000).timeout = 20000 ∧
    (construct 1 2 20000).defaultUnit = Unit.CM ∧
    constructDefaultTimeout 1 2 = construct 1 2 20000 :=
  twoPin_constructor_fields 1 2 20000 (by decide)

/-- Claim C9: read() modifies none of the configuration fields of the
instance, and a repeated read() from the state left by a first read(), with
the same simulated echo trace and the same unit, returns the same value. -/
theorem read_preserves_config (s : State) (unit : Unit)
    (echo : Nat → Bool) (t0 : Nat) :
    (readM s unit echo t0).2 = s ∧
    (readM (readM s unit echo t0).2 unit echo t0).1 =
      (readM s unit echo t0).1 := by
  exact ⟨rfl, rfl⟩

/-- Claim C10: the timing engine encodes its timeout outcome as the
duration value 0, so read() returns the sentinel 0 exactly when the raw
duration produced by timing() equals 0; a completed echo pulse measured as
0 microseconds would therefore be indistinguishable from a timeout at the
public interface. -/
theorem read_zero_iff_timing_zero (s : State) (unit : Unit)
    (echo : Nat → Bool) (t0 : Nat) :
    read s unit echo t0 = 0 ↔ timing s echo t0 = 0 := by
  have hr : read s unit echo t0 =
      if timing s echo t0 = 0 then 0
      else convertToUnit (timing s echo t0) unit := rfl
  rw [hr]
  by_cases h : timing s echo t0 = 0
  · simp [h]
  · rw [if_neg h]
    simp only [h, iff_false]
    exact ne_of_gt (convertToUnit_pos _ _ (Nat.pos_of_ne_zero h))

/-- Claim C2, counterexample: the claim asserts that the base distance is
computed by the single division durationMicroseconds / TIME_PER_CM (with
TIME_PER_CM about 29.1) and that 5882 microseconds converts to 100.0 cm
within 0.01 relative error. The code computes
`microseconds / MICROSECONDS_PER_CM / 2.0`, a second division by 2, so at
5882 microseconds the centimeter result is 29410/291 (about 101.065), which
differs from 5882 / 29.1 and misses 100.0 by more than 1 percent. -/
theorem convertToUnit_claim_counterexample :
    convertToUnit 5882 Unit.CM ≠ 5882 / MICROSECONDS_PER_CM ∧
    ¬ (|convertToUnit 5882 Unit.CM - 100| ≤ (1 / 100) * 100) := by
  have hx : convertToUnit 5882 Unit.CM = 29410 / 291 := by
    norm_num [convertToUnit, MICROSECONDS_PER_CM]
  rw [hx]
  constructor
  · norm_num [MICROSECONDS_PER_CM]
  · rw [abs_of_nonneg (by norm_num : (0 : ℚ) ≤ 29410 / 291 - 100)]
    norm_num

/-- Claim C2, amended: for every round-trip duration d in microseconds the
Unit Conversion Table computes the base distance as distanceCentimeters =
d / TIME_PER_CM / 2 with TIME_PER_CM = 29.1 (the constant holds the one-way
microseconds per centimeter and a separate division by 2 performs the
round-trip halving), so that 5882 microseconds converts to about 101.07 cm,
1.0107 m, 1010.7 mm, 39.79 in, 1.105 yd and 0.000628 mi, each within 0.015
relative error of the documented reference values 100.0 cm, 1.0 m,
1000.0 mm, 39.37 in, 1.09 yd and 0.000621 mi. -/
theorem convertToUnit_two_step_division_values :
    (∀ d : Nat,
      convertToUnit d Unit.CM = (d : ℚ) / MICROSECONDS_PER_CM / 2) ∧
    |convertToUnit 5882 Unit.CM - 100| ≤ (15 / 1000) * 100 ∧
    |convertToUnit 5882 Unit.METERS - 1| ≤ (15 / 1000) * 1 ∧
    |convertToUnit 5882 Unit.MM - 1000| ≤ (15 / 1000) * 1000 ∧
    |convertToUnit 5882 Unit.INCHES - 3937 / 100| ≤
      (15 / 1000) * (3937 / 100) ∧
    |convertToUnit 5882 Unit.YARDS - 109 / 100| ≤
      (15 / 1000) * (109 / 100) ∧
    |convertToUnit 5882 Unit.MILES - 621 / 1000000| ≤
      (15 / 1000) * (621 / 1000000) := by
  refine ⟨fun d => rfl, ?_, ?_, ?_, ?_, ?_, ?_⟩ <;>
    rw [abs_of_nonneg (by norm_num [convertToUnit, MICROSECONDS_PER_CM])] <;>
    norm_num [convertToUnit, MICROSECONDS_PER_CM]

/-- Claim C1 (code bug evaluation): an instance constructed with pins 1 and
2 and timeout 300, reconfigured by setUnit(METERS), measuring an echo pulse
of 291 microseconds (echo HIGH on ticks 0 to 290 from poll start 0),
returns 5 from read() with no explicit unit argument (centimeters, because
the default argument of read() is the constant CM) but 5/100 from
read(METERS); the two disagree, although the claim, the spec and the
documentation of setUnit() all state that read() with no argument uses the
configured default unit. -/
theorem read_default_unit_bug :
    readDefault (setUnit (construct 1 2 300) Unit.METERS)
        (fun t => decide (t < 291)) 0 = 5 ∧
    read (setUnit (construct 1 2 300) Unit.METERS) Unit.METERS
        (fun t => decide (t < 291)) 0 = 5 / 100 ∧
    readDefault (setUnit (construct 1 2 300) Unit.METERS)
        (fun t => decide (t < 291)) 0 ≠
      read (setUnit (construct 1 2 300) Unit.METERS) Unit.METERS
        (fun t => decide (t < 291)) 0 := by
  have ht : timing (setUnit (construct 1 2 300) Unit.METERS)
      (fun t => decide (t < 291)) 0 = 291 := by decide
  have hr : ∀ u : Unit, read (setUnit (construct 1 2 300) Unit.METERS) u
      (fun t => decide (t < 291)) 0 =
      if timing (setUnit (construct 1 2 300) Unit.METERS)
          (fun t => decide (t < 291)) 0 = 0 then 0
      else convertToUnit (timing (setUnit (construct 1 2 300) Unit.METERS)
          (fun t => decide (t < 291)) 0) u := fun _ => rfl
  refine ⟨?_, ?_, ?_⟩ <;>
    simp only [readDefault, hr, ht] <;>
    norm_num [convertToUnit, MICROSECONDS_PER_CM]

/-- Claim C3: for every configuration and requested unit, if from the poll
start t0 the echo line never goes HIGH within the timeout window (every
poll up to an elapsed time of timeout + 1 microseconds, at which the
strict timeout check fires, reads LOW), timing() returns the timeout
outcome 0 and read() returns exactly 0; and likewise whenever the echo
line stays LOW from t0 until some arbitrary tick t1 and the HIGH phase
beginning at t1 does not end within its own timeout window, timing() and
read() also return 0 (this covers both a HIGH phase that starts at once
and one that starts with any delay, including past the first window). -/
theorem timeout_yields_zero (s : State) (unit : Unit)
    (echo : Nat → Bool) (t0 : Nat) :
    ((∀ u, t0 ≤ u → u ≤ t0 + s.timeout + 1 → echo u = false) →
      timing s echo t0 = 0 ∧ read s unit echo t0 = 0) ∧
    (∀ t1, t0 ≤ t1 →
      (∀ u, t0 ≤ u → u < t1 → echo u = false) →
      (∀ u, t1 ≤ u → u ≤ t1 + s.timeout + 1 → echo u = true) →
      timing s echo t0 = 0 ∧ read s unit echo t0 = 0) := by
  have hread : timing s echo t0 = 0 → read s unit echo t0 = 0 := by
    intro h
    have hr : read s unit echo t0 =
        if timing s echo t0 = 0 then 0
        else convertToUnit (timing s echo t0) unit := rfl
    rw [hr, if_pos h]
  constructor
  · intro hno
    have h1 : (waitForLevel echo true t0 s.timeout (s.timeout + 2) t0).1 =
        none := by
      apply waitForLevel_none_of_no_level echo true t0 s.timeout
        (s.timeout + 2) t0 (le_refl t0) (by omega)
      intro u hu hwin
      rw [hno u hu (by omega)]
      simp
    have ht : timing s echo t0 = 0 := by
      rw [timing_eq, h1]
    exact ⟨ht, hread ht⟩
  · intro t1 ht01 hlow hhigh
    by_cases hcase : t1 ≤ t0 + s.timeout + 1
    · have h1 : (waitForLevel echo true t0 s.timeout
          (s.timeout + 2) t0).1 = some t1 := by
        apply waitForLevel_first_found echo true t0 s.timeout t1
          (s.timeout + 2) t0 (le_refl t0) ht01 (by omega) (by omega)
        · intro u hu hu2
          rw [hlow u hu hu2]
          simp
        · exact hhigh t1 (le_refl t1) (by omega)
      have h2 : (waitForLevel echo false t1 s.timeout
          (s.timeout + 2) t1).1 = none := by
        apply waitForLevel_none_of_no_level echo false t1 s.timeout
          (s.timeout + 2) t1 (le_refl t1) (by omega)
        intro u hu hwin
        rw [hhigh u hu (by omega)]
        simp
      have ht : timing s echo t0 = 0 := by
        rw [timing_eq, h1]
        show (match (waitForLevel echo false t1 s.timeout
            (s.timeout + 2) t1).1 with
          | none => 0
          | some pulseEnd => pulseEnd - t1) = 0
        rw [h2]
      exact ⟨ht, hread ht⟩
    · have h1 : (waitForLevel echo true t0 s.timeout
          (s.timeout + 2) t0).1 = none := by
        apply waitForLevel_none_of_no_level echo true t0 s.timeout
          (s.timeout + 2) t0 (le_refl t0) (by omega)
        intro u hu hwin
        rw [hlow u hu (by omega)]
        simp
      have ht : timing s echo t0 = 0 := by
        rw [timing_eq, h1]
      exact ⟨ht, hread ht⟩

/-- Witness for claim C3 on a sensor on pins 1 and 2 with timeout 3: an
echo line that stays LOW forever times out with read() returning 0, and an
echo line that stays LOW on ticks 0 and 1 and then stays HIGH forever (a
delayed HIGH phase that never ends) also makes read() return 0. -/
theorem timeout_yields_zero_witness :
    (timing (construct 1 2 3) (fun _ => false) 0 = 0 ∧
      read (construct 1 2 3) Unit.CM (fun _ => false) 0 = 0) ∧
    (timing (construct 1 2 3) (fun t => decide (2 ≤ t)) 0 = 0 ∧
      read (construct 1 2 3) Unit.CM (fun t => decide (2 ≤ t)) 0 = 0) :=
  ⟨(timeout_yields_zero (construct 1 2 3) Unit.CM (fun _ => false) 0).1
      (fun _ _ _ => rfl),
    (timeout_yields_zero (construct 1 2 3) Unit.CM
        (fun t => decide (2 ≤ t)) 0).2 2 (by omega)
      (fun u _ hu => decide_eq_false (by omega))
      (fun u hu _ => decide_eq_true hu)⟩

/-- Claim C4, counterexample: the claim asserts that a non-timeout duration
is at most the configured timeoutMicroseconds, but with timeout 2 and an
echo line HIGH on ticks 0, 1 and 2 and LOW from tick 3, the last HIGH poll
happens at an elapsed time of exactly 2 (the strict check does not fire)
and the LOW transition is observed one poll later, so timing() returns 3,
which exceeds the timeout. -/
theorem duration_exceeds_timeout_counterexample :
    timing (construct 1 2 2) (fun t => decide (t ≤ 2)) 0 = 3 ∧
    ¬ (timing (construct 1 2 2) (fun t => decide (t ≤ 2)) 0 ≤
        (construct 1 2 2).timeout) := by
  decide

/-- Claim C4, amended: whenever the timing engine observes the echo go HIGH
then LOW within the window (it does not return the timeout outcome 0), the
raw duration it returns is strictly greater than 0 and at most
timeoutMicroseconds + 1: the echo can be seen still HIGH at an elapsed time
of exactly the timeout and the LOW transition be recorded one poll later
(hence the duration is at most 2 x timeoutMicroseconds whenever the
timeout is at least 1). -/
theorem nonTimeout_duration_bounds (s : State) (echo : Nat → Bool)
    (t0 : Nat) (h : timing s echo t0 ≠ 0) :
    0 < timing s echo t0 ∧ timing s echo t0 ≤ s.timeout + 1 := by
  rcases h1 : (waitForLevel echo true t0 s.timeout (s.timeout + 2) t0).1
      with _ | pulseStart
  · exact absurd (by rw [timing_eq, h1]) h
  · rcases h2 : (waitForLevel echo false pulseStart s.timeout
        (s.timeout + 2) pulseStart).1 with _ | pulseEnd
    · refine absurd ?_ h
      rw [timing_eq, h1]
      show (match (waitForLevel echo false pulseStart s.timeout
          (s.timeout + 2) pulseStart).1 with
        | none => 0
        | some pulseEnd => pulseEnd - pulseStart) = 0
      rw [h2]
    · have hT : timing s echo t0 = pulseEnd - pulseStart := by
        rw [timing_eq, h1]
        show (match (waitForLevel echo false pulseStart s.timeout
            (s.timeout + 2) pulseStart).1 with
          | none => 0
          | some pulseEnd => pulseEnd - pulseStart) = pulseEnd - pulseStart
        rw [h2]
      obtain ⟨hev1, _, _, _⟩ := waitForLevel_found echo true t0 s.timeout
        (s.timeout + 2) t0 pulseStart (le_refl t0) (by omega) h1
      obtain ⟨hev2, hle, _, hwin⟩ := waitForLevel_found echo false
        pulseStart s.timeout (s.timeout + 2) pulseStart pulseEnd
        (le_refl pulseStart) (by omega) h2
      have hne : pulseStart ≠ pulseEnd := by
        intro hEq
        rw [hEq, hev2] at hev1
        simp at hev1
      rw [hT]
      omega

/-- Witness for the amended claim C4: with timeout 10 and an echo pulse
HIGH on ticks 0 to 2, the returned duration 3 is positive and at most 11. -/
theorem nonTimeout_duration_bounds_witness :
    0 < timing (construct 1 2 10) (fun t => decide (t ≤ 2)) 0 ∧
    timing (construct 1 2 10) (fun t => decide (t ≤ 2)) 0 ≤
      (construct 1 2 10).timeout + 1 :=
  nonTimeout_duration_bounds (construct 1 2 10)
    (fun t => decide (t ≤ 2)) 0 (by decide)

/-- Claim C7: in a wait phase of the timing engine (both phases are
instances of waitForLevel with the fuel used by timing()), a transition
first observed at an elapsed time of exactly the configured timeout is not
reported as a timeout but returned as a successful exit; and the timeout
outcome arises only when the awaited level was absent at every poll with
elapsed time at most the timeout, so it is taken only when the elapsed time
strictly exceeds the timeout before the transition occurs. -/
theorem wait_boundary_not_timeout (echo : Nat → Bool) (lvl : Bool)
    (start timeout : Nat) :
    ((∀ u, start ≤ u → u < start + timeout → echo u ≠ lvl) →
      echo (start + timeout) = lvl →
      (waitForLevel echo lvl start timeout (timeout + 2) start).1 =
        some (start + timeout)) ∧
    ((waitForLevel echo lvl start timeout (timeout + 2) start).1 = none →
      ∀ u, start ≤ u → u - start ≤ timeout → echo u ≠ lvl) := by
  constructor
  · intro hno hhit
    exact waitForLevel_boundary echo lvl start timeout (timeout + 2) start
      (le_refl start) (by omega) (by omega) hno hhit
  · intro hnone u hu hwin
    exact no_level_of_waitForLevel_none echo lvl start timeout
      (timeout + 2) start (le_refl start) (by omega) hnone u hu hwin

/-- Witness for claim C7: with timeout 3 and an echo line that goes HIGH
exactly at tick 3 (elapsed time exactly the timeout), the wait returns the
successful exit at tick 3 rather than the timeout outcome. -/
theorem wait_boundary_not_timeout_witness :
    (waitForLevel (fun u => decide (u = 3)) true 0 3 5 0).1 = some 3 :=
  (wait_boundary_not_timeout (fun u => decide (u = 3)) true 0 3).1
    (fun u _ hu => by
      simp only [ne_eq, decide_eq_true_eq]
      omega)
    (by decide)

/-- Claim C8: every measurement cycle emits, before any poll of the echo
line, exactly the trigger sequence write LOW, delay 2 microseconds (which
meets the requirement of at least 2), write HIGH, delay 10 microseconds,
write LOW; when singlePinMode is set the same pin is switched to OUTPUT
before the pulse and to INPUT immediately after the pulse and before the
echo wait begins; and everything after this fixed block consists solely of
echo polls. -/
theorem trigger_pulse_shape_and_order (s : State) (echo : Nat → Bool)
    (t0 : Nat) :
    ∃ polls : List Ev,
      (∀ e ∈ polls, ∃ u v, e = Ev.readEcho u v) ∧
      (timingE s echo t0).2 =
        ((if s.isThreePin then [Ev.pinModeTrigOutput] else []) ++
         [Ev.writeTrig false, Ev.delayMicroseconds 2, Ev.writeTrig true,
          Ev.delayMicroseconds 10, Ev.writeTrig false] ++
         (if s.isThreePin then [Ev.pinModeTrigInput] else [])) ++ polls := by
  unfold timingE
  rcases h1 : waitForLevel echo true t0 s.timeout (s.timeout + 2) t0 with
    ⟨_ | pulseStart, evs1⟩
  · refine ⟨evs1, ?_, ?_⟩
    · intro e he
      have hm : e ∈ (waitForLevel echo true t0 s.timeout
          (s.timeout + 2) t0).2 := by
        rw [h1]
        exact he
      exact waitForLevel_trace_reads echo true t0 s.timeout _ _ e hm
    · show trigPulseEvents s ++ evs1 = _
      rw [trigPulseEvents]
  · dsimp only
    rcases h2 : waitForLevel echo false pulseStart s.timeout
        (s.timeout + 2) pulseStart with ⟨_ | pulseEnd, evs2⟩
    all_goals
      refine ⟨evs1 ++ evs2, ?_, ?_⟩
      · intro e he
        rcases List.mem_append.mp he with he1 | he2
        · have hm : e ∈ (waitForLevel echo true t0 s.timeout
              (s.timeout + 2) t0).2 := by
            rw [h1]
            exact he1
          exact waitForLevel_trace_reads echo true t0 s.timeout _ _ e hm
        · have hm : e ∈ (waitForLevel echo false pulseStart s.timeout
              (s.timeout + 2) pulseStart).2 := by
            rw [h2]
            exact he2
          exact waitForLevel_trace_reads echo false pulseStart s.timeout
            _ _ e hm
      · show trigPulseEvents s ++ evs1 ++ evs2 = _
        rw [trigPulseEvents, List.append_assoc]

end MinimalUltrasonic
